import Mathlib

/-!
Shallow embedding of the patient-listing API route
(`src/app/api/patients/route.ts`) of the patient-management-app
repository, together with proofs about its query pipeline
(filter → sort → paginate) and its request handler.

Modelling conventions:
* JavaScript numbers occurring in this route are integers or `NaN`;
  they are modelled by `Option Int`, with `none` for `NaN`.
  `Math.max` / `Math.min` and arithmetic propagate `NaN`, as in JS.
* `localeCompare` is a host-environment collation function; it is taken
  as an explicit parameter `lc : String → String → Int`.
* `Array.prototype.sort` is a stable sort (ECMA-262); it is modelled by
  `List.mergeSort` on the comparator-induced boolean relation.
* `URLSearchParams.get` returns `null` for an absent key; the query is a
  record of `Option String` fields, one per key the route reads.
* File loading (`loadPatientsData`) is an external effect; the loaded
  collection is passed to the handler model as a parameter `db`.
-/

namespace PatientsApi

/-- JavaScript numbers as they occur in this route: an integer value, or
`NaN` (modelled by `none`). -/
abbrev JSNum := Option Int

/-- `Math.max(a, x)` with a known-integer first argument: `NaN` propagates. -/
def jsMax (a : Int) (x : JSNum) : JSNum := x.map (fun v => max a v)

/-- `Math.min(a, x)` with a known-integer first argument: `NaN` propagates. -/
def jsMin (a : Int) (x : JSNum) : JSNum := x.map (fun v => min a v)

/-- Addition on JS numbers: `NaN` propagates. -/
def jsAdd (x y : JSNum) : JSNum :=
  match x, y with
  | some a, some b => some (a + b)
  | _, _ => none

/-- Subtraction on JS numbers: `NaN` propagates. -/
def jsSub (x y : JSNum) : JSNum :=
  match x, y with
  | some a, some b => some (a - b)
  | _, _ => none

/-- Multiplication on JS numbers: `NaN` propagates.
(`0 * NaN` is `NaN` in JS, so propagation is unconditional.) -/
def jsMul (x y : JSNum) : JSNum :=
  match x, y with
  | some a, some b => some (a * b)
  | _, _ => none

/-- Decimal digit value of a character, if any. -/
def digitVal (c : Char) : Option Nat :=
  if '0' ≤ c ∧ c ≤ '9' then some (c.toNat - '0'.toNat) else none

/-- Hexadecimal digit value of a character, if any. -/
def hexVal (c : Char) : Option Nat :=
  if '0' ≤ c ∧ c ≤ '9' then some (c.toNat - '0'.toNat)
  else if 'a' ≤ c ∧ c ≤ 'f' then some (c.toNat - 'a'.toNat + 10)
  else if 'A' ≤ c ∧ c ≤ 'F' then some (c.toNat - 'A'.toNat + 10)
  else none

/-- Accumulate the longest leading run of digits (per `d`) in base `base`,
starting from accumulator `acc`; stops at the first non-digit. -/
def digitsAux (d : Char → Option Nat) (base : Nat) (acc : Nat) : List Char → Nat
  | [] => acc
  | c :: cs =>
    match d c with
    | none => acc
    | some v => digitsAux d base (base * acc + v) cs

/-- ECMA-262 `parseInt(string)` with no radix argument: skip leading
whitespace, read an optional sign, detect an `0x`/`0X` prefix (hexadecimal),
otherwise parse decimal; the longest valid digit run is taken and trailing
garbage is ignored; no digits at all gives `NaN` (`none`). -/
def parseIntJS (s : String) : JSNum :=
  let cs0 := s.toList.dropWhile (fun c => c.isWhitespace)
  let sign : Int := match cs0 with
    | '-' :: _ => -1
    | _ => 1
  let cs1 : List Char := match cs0 with
    | '-' :: rest => rest
    | '+' :: rest => rest
    | _ => cs0
  match cs1 with
  | '0' :: c :: rest =>
    if c = 'x' ∨ c = 'X' then
      match rest with
      | r :: _ =>
        match hexVal r with
        | some _ => some (sign * (digitsAux hexVal 16 0 rest : Nat))
        | none => none
      | [] => none
    else some (sign * (digitsAux digitVal 10 0 ('0' :: c :: rest) : Nat))
  | c :: cs =>
    match digitVal c with
    | some _ => some (sign * (digitsAux digitVal 10 0 (c :: cs) : Nat))
    | none => none
  | [] => none

/-- A patient record, as declared in the route (`interface Patient`). -/
structure Patient where
  id : Int
  patient_name : String
  age : Int
  email : String
  contact_number : String
  medical_issue : String
  photo_url : Option String
deriving DecidableEq, Repr

/-- The query parameters this route reads from `URLSearchParams`; `none`
models an absent key (`get` returning `null`). -/
structure Query where
  page : Option String
  limit : Option String
  sortBy : Option String
  sortOrder : Option String
  search : Option String
  ageMin : Option String
  ageMax : Option String
  medical_issue : Option String
deriving DecidableEq, Repr

/-- ASCII lowercasing of one character (the mapping performed by
`String.prototype.toLowerCase` on the ASCII range, which is all the route's
comparisons rely on). -/
def lowerChar (c : Char) : Char :=
  if 'A' ≤ c ∧ c ≤ 'Z' then Char.ofNat (c.toNat + 32) else c

/-- `s.toLowerCase()`. -/
def jsToLower (s : String) : String := String.mk (s.toList.map lowerChar)

/-- `s.trim()`: strip whitespace from both ends. -/
def jsTrim (s : String) : String :=
  String.mk
    (((s.toList.dropWhile (fun c => c.isWhitespace)).reverse.dropWhile
      (fun c => c.isWhitespace)).reverse)

/-- Split a character list at commas (helper for `s.split(',')`). -/
def splitAux : List Char → List Char → List String
  | [], acc => [String.mk acc.reverse]
  | c :: cs, acc =>
    if c = ',' then String.mk acc.reverse :: splitAux cs [] else splitAux cs (c :: acc)

/-- `s.split(',')`. -/
def jsSplitComma (s : String) : List String := splitAux s.toList []

/-- JS `v || d` for a possibly-null string `v`: `null` and `""` are falsy. -/
def orElse (o : Option String) (d : String) : String :=
  match o with
  | none => d
  | some s => if s = "" then d else s

/-- JS truthiness of a possibly-null string. -/
def jsTruthy (o : Option String) : Bool :=
  match o with
  | none => false
  | some s => s ≠ ""

/-- `String.prototype.includes`, on character lists: `sub` occurs
contiguously in the list (the empty string is included in everything). -/
def includesAux (sub : List Char) : List Char → Bool
  | [] => sub.isEmpty
  | c :: cs => sub.isPrefixOf (c :: cs) || includesAux sub cs

/-- `s.includes(sub)` for strings. -/
def jsIncludes (s sub : String) : Bool := includesAux sub.toList s.toList

/-- The search predicate of `filterPatients`: the (lowercased) search term
occurs in the lowercased name or the lowercased medical issue. -/
def searchPred (search : String) (p : Patient) : Bool :=
  jsIncludes (jsToLower p.patient_name) search || jsIncludes (jsToLower p.medical_issue) search

/-- `filterPatients`, search block:
`const search = params.get('search')?.toLowerCase(); if (search) { … }`. -/
def searchStage (q : Query) (l : List Patient) : List Patient :=
  let search := q.search.map jsToLower
  if jsTruthy search then l.filter (searchPred (search.getD "")) else l

/-- `filterPatients`, `ageMin` block: the bound applies only when the raw
value is truthy and `parseInt` does not give `NaN`. -/
def ageMinStage (q : Query) (l : List Patient) : List Patient :=
  if jsTruthy q.ageMin then
    match parseIntJS (q.ageMin.getD "") with
    | some minAge => l.filter (fun p => decide (minAge ≤ p.age))
    | none => l
  else l

/-- `filterPatients`, `ageMax` block. -/
def ageMaxStage (q : Query) (l : List Patient) : List Patient :=
  if jsTruthy q.ageMax then
    match parseIntJS (q.ageMax.getD "") with
    | some maxAge => l.filter (fun p => decide (p.age ≤ maxAge))
    | none => l
  else l

/-- The list of normalized issue values: `split(',')`, trim, lowercase. -/
def issueList (s : String) : List String :=
  (jsSplitComma s).map (fun i => jsToLower (jsTrim i))

/-- `filterPatients`, `medical_issue` block: membership of the record's
lowercased issue in the normalized issue list. -/
def issueStage (q : Query) (l : List Patient) : List Patient :=
  if jsTruthy q.medical_issue then
    l.filter (fun p => (issueList (q.medical_issue.getD "")).contains (jsToLower p.medical_issue))
  else l

/-- `filterPatients(patients, params)`: the four filter blocks applied in
source order (search, then `ageMin`, then `ageMax`, then `medical_issue`). -/
def filterPatients (patients : List Patient) (q : Query) : List Patient :=
  issueStage q (ageMaxStage q (ageMinStage q (searchStage q patients)))

/-- The `compareValue` computed by the `switch (sortBy)` in `sortPatients`;
`none` models the `default: return 0` branch, which leaves the comparator
immediately (before the direction flip). -/
def compareValue (lc : String → String → Int) (sortBy : String) (a b : Patient) :
    Option Int :=
  match sortBy with
  | "age" => some (a.age - b.age)
  | "patient_name" => some (lc a.patient_name b.patient_name)
  | _ => none

/-- The full comparator passed to `sort`: `sortOrder === 'desc'` negates the
comparison result (`-compareValue`), otherwise it is returned as is. -/
def comparator (lc : String → String → Int) (sortBy sortOrder : String)
    (a b : Patient) : Int :=
  match compareValue lc sortBy a b with
  | none => 0
  | some c => if sortOrder = "desc" then -c else c

/-- `sortPatients(patients, sortBy, sortOrder)`: empty `sortBy` (JS falsy)
returns the input unchanged; otherwise a stable sort (ECMA-262
`Array.prototype.sort`, modelled by `List.mergeSort`) under the comparator. -/
def sortPatients (lc : String → String → Int) (patients : List Patient)
    (sortBy sortOrder : String) : List Patient :=
  if sortBy = "" then patients
  else patients.mergeSort (fun a b => decide (comparator lc sortBy sortOrder a b ≤ 0))

/-- `ToIntegerOrInfinity` + clamping as performed by `Array.prototype.slice`
on one index argument: `NaN` becomes `0`, a negative index counts from the
end (clamped at `0`), a positive one is clamped to the length. -/
def sliceIdx (len : Nat) (v : JSNum) : Nat :=
  match v with
  | none => 0
  | some i => if i < 0 then ((len : Int) + i).toNat else min i.toNat len

/-- `arr.slice(start, fin)` (ECMA-262). -/
def jsSlice {α : Type} (l : List α) (start fin : JSNum) : List α :=
  let s := sliceIdx l.length start
  let e := sliceIdx l.length fin
  (l.drop s).take (e - s)

/-- `Math.ceil(total / limit)` as computed in `paginateResults`: exact
rational division followed by ceiling.  Division by `0` gives `Infinity` (or
`NaN` for `0/0`) in JS; that case is modelled as `NaN` — it is unreachable
from the handler, which clamps a numeric limit into `[1, 100]`. -/
def jsCeilDiv (total : Nat) (limit : JSNum) : JSNum :=
  match limit with
  | none => none
  | some k => if k = 0 then none else some ⌈(total : ℚ) / (k : ℚ)⌉

/-- The `meta` object of a response. -/
structure Meta where
  total : Nat
  page : JSNum
  limit : JSNum
  totalPages : JSNum
deriving DecidableEq, Repr

/-- The response envelope (`interface ApiResponse`). -/
structure ApiResponse where
  data : List Patient
  meta : Meta
deriving DecidableEq, Repr

/-- `paginateResults(patients, page, limit)`. -/
def paginateResults (patients : List Patient) (page limit : JSNum) : ApiResponse :=
  let total := patients.length
  let totalPages := jsCeilDiv total limit
  let offset := jsMul (jsSub page (some 1)) limit
  { data := jsSlice patients offset (jsAdd offset limit)
    meta := { total := total, page := page, limit := limit, totalPages := totalPages } }

/-- The `page` value computed by the handler:
`Math.max(1, parseInt(searchParams.get('page') || '1'))`. -/
def pageParam (q : Query) : JSNum := jsMax 1 (parseIntJS (orElse q.page "1"))

/-- The `limit` value computed by the handler:
`Math.min(100, Math.max(1, parseInt(searchParams.get('limit') || '20')))`. -/
def limitParam (q : Query) : JSNum :=
  jsMin 100 (jsMax 1 (parseIntJS (orElse q.limit "20")))

/-- The allowed sort fields of the handler. -/
def validSortFields : List String := ["age", "patient_name"]

/-- The allowed sort orders of the handler. -/
def validSortOrders : List String := ["asc", "desc"]

/-- A response of the `GET` handler: an error body with a status code, or a
`200` result envelope.  (The `catch`-all `500` branch concerns the data
loader, which is modelled as the already-loaded parameter `db`.) -/
inductive GetResponse where
  | error (status : Nat) (msg : String)
  | ok (status : Nat) (body : ApiResponse)
deriving DecidableEq, Repr

/-- The `GET` handler: parameter extraction, sort-parameter validation with
early `400` returns, then filter → sort → paginate on the loaded data. -/
def GET (lc : String → String → Int) (db : List Patient) (q : Query) : GetResponse :=
  let page := pageParam q
  let limit := limitParam q
  let sortBy := orElse q.sortBy ""
  let sortOrder := orElse q.sortOrder "asc"
  if sortBy ≠ "" ∧ ¬ validSortFields.contains sortBy then
    .error 400 ("Invalid sortBy field. Must be one of: " ++ String.intercalate ", " validSortFields)
  else if sortOrder ≠ "" ∧ ¬ validSortOrders.contains sortOrder then
    .error 400 ("Invalid sortOrder. Must be one of: " ++ String.intercalate ", " validSortOrders)
  else
    .ok 200 (paginateResults (sortPatients lc (filterPatients db q) sortBy sortOrder) page limit)

/-- The query with every parameter absent. -/
def emptyQuery : Query := ⟨none, none, none, none, none, none, none, none⟩

/-- Replace the `page` parameter. -/
def withPage (q : Query) (v : Option String) : Query :=
  ⟨v, q.limit, q.sortBy, q.sortOrder, q.search, q.ageMin, q.ageMax, q.medical_issue⟩

/-- Replace the `limit` parameter. -/
def withLimit (q : Query) (v : Option String) : Query :=
  ⟨q.page, v, q.sortBy, q.sortOrder, q.search, q.ageMin, q.ageMax, q.medical_issue⟩

/-- Replace the `sortBy` parameter. -/
def withSortBy (q : Query) (v : Option String) : Query :=
  ⟨q.page, q.limit, v, q.sortOrder, q.search, q.ageMin, q.ageMax, q.medical_issue⟩

/-- Replace the `sortOrder` parameter. -/
def withSortOrder (q : Query) (v : Option String) : Query :=
  ⟨q.page, q.limit, q.sortBy, v, q.search, q.ageMin, q.ageMax, q.medical_issue⟩

/-- Replace the `ageMin` parameter. -/
def withAgeMin (q : Query) (v : Option String) : Query :=
  ⟨q.page, q.limit, q.sortBy, q.sortOrder, q.search, v, q.ageMax, q.medical_issue⟩

/-- Replace the `ageMax` parameter. -/
def withAgeMax (q : Query) (v : Option String) : Query :=
  ⟨q.page, q.limit, q.sortBy, q.sortOrder, q.search, q.ageMin, v, q.medical_issue⟩

/-- The numeric `ageMin` bound actually applied by `ageMinStage`: present
exactly when the raw parameter is truthy and parses to a number. -/
def ageMinBound (q : Query) : Option Int :=
  if jsTruthy q.ageMin then parseIntJS (q.ageMin.getD "") else none

/-- The numeric `ageMax` bound actually applied by `ageMaxStage`. -/
def ageMaxBound (q : Query) : Option Int :=
  if jsTruthy q.ageMax then parseIntJS (q.ageMax.getD "") else none

/-- Pointwise predicate equivalent of `searchStage`. -/
def searchPass (q : Query) (p : Patient) : Bool :=
  if jsTruthy (q.search.map jsToLower) then
    searchPred ((q.search.map jsToLower).getD "") p
  else true

/-- Pointwise predicate equivalent of `ageMinStage`. -/
def ageMinPass (q : Query) (p : Patient) : Bool :=
  match ageMinBound q with
  | some m => decide (m ≤ p.age)
  | none => true

/-- Pointwise predicate equivalent of `ageMaxStage`. -/
def ageMaxPass (q : Query) (p : Patient) : Bool :=
  match ageMaxBound q with
  | some m => decide (p.age ≤ m)
  | none => true

/-- Pointwise predicate equivalent of `issueStage`. -/
def issuePass (q : Query) (p : Patient) : Bool :=
  if jsTruthy q.medical_issue then
    (issueList (q.medical_issue.getD "")).contains (jsToLower p.medical_issue)
  else true

/-- The conjunction of all four filter predicates, associated the way the
staged filters compose. -/
def filterPass (q : Query) (p : Patient) : Bool :=
  issuePass q p && ageMaxPass q p && ageMinPass q p && searchPass q p

/-- A small concrete collection with ages `[30, 25, 30, 40]` (ids 1–4),
used for concrete instances of the spec's examples. -/
def pA : Patient := ⟨1, "Alice", 30, "a@x.org", "111", "fever", none⟩

def pB : Patient := ⟨2, "Bob", 25, "b@x.org", "222", "rash", none⟩

def pC : Patient := ⟨3, "Carol", 30, "c@x.org", "333", "fever", none⟩

def pD : Patient := ⟨4, "Dave", 40, "d@x.org", "444", "fracture", none⟩

def samplePatients : List Patient := [pA, pB, pC, pD]

/-! ### Supporting lemmas -/

/-- Ceiling of an exact rational division of naturals, as a natural-number
formula. -/
theorem ceil_natCast_div (n k : Nat) (hk : 0 < k) :
    ⌈(n : ℚ) / (k : ℚ)⌉ = (((n + k - 1) / k : Nat) : Int) := by
  have hkq : (0 : ℚ) < (k : ℚ) := by exact_mod_cast hk
  set q : Nat := (n + k - 1) / k with hq
  have h1 : q * k ≤ n + k - 1 := Nat.div_mul_le_self _ _
  have h2 : n + k - 1 < q * k + k := by
    have h := (Nat.div_lt_iff_lt_mul hk).mp (Nat.lt_succ_self ((n + k - 1) / k))
    calc n + k - 1 < ((n + k - 1) / k + 1) * k := h
    _ = q * k + k := by rw [← hq, Nat.succ_mul]
  have hn_le : n ≤ q * k := by omega
  apply le_antisymm
  · rw [Int.ceil_le]
    rw [div_le_iff₀ hkq]
    push_cast
    exact_mod_cast hn_le
  · rcases Nat.eq_zero_or_pos n with h0 | h0
    · subst h0
      have : q = 0 := by
        rw [hq]; exact (Nat.div_eq_zero_iff hk).mpr (by omega)
      simp [this]
    · have hq1 : 1 ≤ q := by
        rw [hq]
        exact (Nat.le_div_iff_mul_le hk).mpr (by omega)
      have hlt : (q - 1) * k < n := by
        have hs : (q - 1) * k = q * k - 1 * k := Nat.sub_mul q 1 k
        omega
      have : ((q : Int) - 1) < ⌈(n : ℚ) / (k : ℚ)⌉ := by
        rw [Int.lt_ceil]
        rw [lt_div_iff₀ hkq]
        have : (((q - 1) * k : Nat) : ℚ) < (n : ℚ) := by exact_mod_cast hlt
        push_cast at this ⊢
        rw [Nat.cast_sub hq1] at this
        push_cast at this
        linarith
      omega

/-- `jsCeilDiv` on an in-range limit, as a natural-number formula. -/
theorem jsCeilDiv_eq (n : Nat) (k : Int) (hk : 1 ≤ k) :
    jsCeilDiv n (some k) = some (((n + k.toNat - 1) / k.toNat : Nat) : Int) := by
  have hk0 : ¬ k = 0 := by omega
  have hkt : 0 < k.toNat := by omega
  have hcast : (k : ℚ) = (k.toNat : ℚ) := by
    have h : ((k.toNat : Int) : ℚ) = (k : ℚ) := by
      rw [Int.toNat_of_nonneg (by omega)]
    exact_mod_cast h.symm
  simp only [jsCeilDiv, if_neg hk0]
  rw [hcast, ceil_natCast_div n k.toNat hkt]

/-- The collection is covered by `ceil(n/k)` chunks of size `k`. -/
theorem le_ceilDiv_mul (n k : Nat) (hk : 0 < k) : n ≤ ((n + k - 1) / k) * k := by
  have h := (Nat.div_lt_iff_lt_mul hk).mp (Nat.lt_succ_self ((n + k - 1) / k))
  rw [Nat.succ_mul] at h
  omega

/-- `slice` with nonnegative integer indices is `drop`-then-`take`. -/
theorem jsSlice_nonneg {α : Type} (l : List α) (a b : Int) (ha : 0 ≤ a) (hb : 0 ≤ b) :
    jsSlice l (some a) (some b) = (l.drop a.toNat).take (b.toNat - a.toNat) := by
  have hna : ¬ a < 0 := by omega
  have hnb : ¬ b < 0 := by omega
  simp only [jsSlice, sliceIdx, if_neg hna, if_neg hnb]
  rcases le_or_lt a.toNat l.length with h | h
  · rw [min_eq_left h]
    rcases le_or_lt b.toNat l.length with h' | h'
    · rw [min_eq_left h']
    · rw [min_eq_right (le_of_lt h'),
        List.take_of_length_le (by rw [List.length_drop]),
        List.take_of_length_le (by rw [List.length_drop]; omega)]
  · rw [min_eq_right (le_of_lt h)]
    rw [List.drop_length, List.drop_eq_nil_of_le (le_of_lt h)]
    simp

/-- `searchStage` is a `filter`. -/
theorem searchStage_eq (q : Query) (l : List Patient) :
    searchStage q l = l.filter (searchPass q) := by
  by_cases h : jsTruthy (q.search.map jsToLower)
  · rw [searchStage, if_pos h]
    exact List.filter_congr (fun p _ => by simp [searchPass, h])
  · rw [searchStage, if_neg h,
      show l.filter (searchPass q) = l.filter (fun _ => true) from
        List.filter_congr (fun p _ => by simp [searchPass, h]),
      List.filter_true]

/-- `ageMinStage` is a `filter`. -/
theorem ageMinStage_eq (q : Query) (l : List Patient) :
    ageMinStage q l = l.filter (ageMinPass q) := by
  by_cases h : jsTruthy q.ageMin
  · cases hp : parseIntJS (q.ageMin.getD "") with
    | none =>
      rw [ageMinStage, if_pos h, hp,
        show l.filter (ageMinPass q) = l.filter (fun _ => true) from
          List.filter_congr (fun p _ => by simp [ageMinPass, ageMinBound, h, hp]),
        List.filter_true]
    | some m =>
      rw [ageMinStage, if_pos h, hp]
      exact List.filter_congr (fun p _ => by simp [ageMinPass, ageMinBound, h, hp])
  · rw [ageMinStage, if_neg h,
      show l.filter (ageMinPass q) = l.filter (fun _ => true) from
        List.filter_congr (fun p _ => by simp [ageMinPass, ageMinBound, h]),
      List.filter_true]

/-- `ageMaxStage` is a `filter`. -/
theorem ageMaxStage_eq (q : Query) (l : List Patient) :
    ageMaxStage q l = l.filter (ageMaxPass q) := by
  by_cases h : jsTruthy q.ageMax
  · cases hp : parseIntJS (q.ageMax.getD "") with
    | none =>
      rw [ageMaxStage, if_pos h, hp,
        show l.filter (ageMaxPass q) = l.filter (fun _ => true) from
          List.filter_congr (fun p _ => by simp [ageMaxPass, ageMaxBound, h, hp]),
        List.filter_true]
    | some m =>
      rw [ageMaxStage, if_pos h, hp]
      exact List.filter_congr (fun p _ => by simp [ageMaxPass, ageMaxBound, h, hp])
  · rw [ageMaxStage, if_neg h,
      show l.filter (ageMaxPass q) = l.filter (fun _ => true) from
        List.filter_congr (fun p _ => by simp [ageMaxPass, ageMaxBound, h]),
      List.filter_true]

/-- `issueStage` is a `filter`. -/
theorem issueStage_eq (q : Query) (l : List Patient) :
    issueStage q l = l.filter (issuePass q) := by
  by_cases h : jsTruthy q.medical_issue
  · rw [issueStage, if_pos h]
    exact List.filter_congr (fun p _ => by simp [issuePass, h])
  · rw [issueStage, if_neg h,
      show l.filter (issuePass q) = l.filter (fun _ => true) from
        List.filter_congr (fun p _ => by simp [issuePass, h]),
      List.filter_true]

/-- The whole filter stage is one `filter` over the conjunction of its
predicates. -/
theorem filterPatients_eq_filter (q : Query) (l : List Patient) :
    filterPatients l q = l.filter (filterPass q) := by
  rw [filterPatients, searchStage_eq, ageMinStage_eq, ageMaxStage_eq, issueStage_eq,
    List.filter_filter, List.filter_filter, List.filter_filter]
  rfl

/-- Chunks of size `k` taken at offsets `0, k, 2k, …` cover a list of
length at most `m * k`. -/
theorem flatten_chunks {α : Type} (k : Nat) :
    ∀ (m : Nat) (l : List α), l.length ≤ m * k →
      ((List.range m).map (fun i => (l.drop (i * k)).take k)).flatten = l := by
  intro m
  induction m with
  | zero =>
    intro l hl
    simp at hl
    simp [hl]
  | succ m ih =>
    intro l hl
    have hl' : l.length ≤ m * k + k := by
      calc l.length ≤ (m + 1) * k := hl
      _ = m * k + k := by rw [Nat.succ_mul]
    have hdl : (l.drop k).length ≤ m * k := by rw [List.length_drop]; omega
    rw [List.range_succ_eq_map]
    simp only [List.map_cons, List.map_map, List.flatten_cons]
    have hrw : (List.map ((fun i => (l.drop (i * k)).take k) ∘ Nat.succ) (List.range m))
        = List.map (fun i => ((l.drop k).drop (i * k)).take k) (List.range m) := by
      apply List.map_congr_left
      intro i _
      simp only [Function.comp_apply]
      rw [List.drop_drop,
        show Nat.succ i * k = k + i * k from by rw [Nat.succ_mul]; omega]
    rw [hrw, ih (l.drop k) hdl]
    simp


end PatientsApi

namespace PatientsApi

/-- When the computed `page` is a number, it is at least `1`. -/
theorem pageParam_some (q : Query) (n : Int) (h : pageParam q = some n) : 1 ≤ n := by
  unfold pageParam jsMax at h
  cases hp : parseIntJS (orElse q.page "1") with
  | none => rw [hp] at h; exact absurd h (by simp)
  | some v =>
    rw [hp] at h
    have hn : max 1 v = n := by simpa using h
    omega

/-- When the computed `limit` is a number, it lies in `[1, 100]`. -/
theorem limitParam_some (q : Query) (n : Int) (h : limitParam q = some n) :
    1 ≤ n ∧ n ≤ 100 := by
  unfold limitParam jsMin jsMax at h
  cases hp : parseIntJS (orElse q.limit "20") with
  | none => rw [hp] at h; exact absurd h (by simp)
  | some v =>
    rw [hp] at h
    have hn : min 100 (max 1 v) = n := by simpa using h
    omega

/-- Any `ok` response of the handler is the `200` pipeline result. -/
theorem GET_ok (lc : String → String → Int) (db : List Patient) (q : Query)
    (s : Nat) (r : ApiResponse) (h : GET lc db q = .ok s r) :
    s = 200 ∧
      r = paginateResults
        (sortPatients lc (filterPatients db q) (orElse q.sortBy "") (orElse q.sortOrder "asc"))
        (pageParam q) (limitParam q) := by
  simp only [GET] at h
  split at h
  · exact absurd h (by simp)
  · split at h
    · exact absurd h (by simp)
    · rw [GetResponse.ok.injEq] at h
      exact ⟨h.1.symm, h.2.symm⟩

/-- The page slice for a numeric page `p ≥ 1` and limit `k ≥ 1` is
`drop ((p-1)·k)` then `take k`. -/
theorem paginate_data (l : List Patient) (p k : Int) (hp : 1 ≤ p) (hk : 1 ≤ k) :
    (paginateResults l (some p) (some k)).data
      = (l.drop ((p - 1) * k).toNat).take k.toNat := by
  have ho : 0 ≤ (p - 1) * k := mul_nonneg (by omega) (by omega)
  have he : 0 ≤ (p - 1) * k + k := by omega
  show jsSlice l (jsMul (jsSub (some p) (some 1)) (some k))
      (jsAdd (jsMul (jsSub (some p) (some 1)) (some k)) (some k))
      = (l.drop ((p - 1) * k).toNat).take k.toNat
  simp only [jsSub, jsMul, jsAdd]
  rw [jsSlice_nonneg l _ _ ho he]
  congr 1
  rw [Int.toNat_add ho (by omega)]
  omega

/-- The page slice for the `(i+1)`-st page, in natural-number offsets. -/
theorem paginate_data_nat (l : List Patient) (k : Int) (hk : 1 ≤ k) (i : Nat) :
    (paginateResults l (some ((i : Int) + 1)) (some k)).data
      = (l.drop (i * k.toNat)).take k.toNat := by
  rw [paginate_data l _ k (by omega) hk]
  have hk' : ((k.toNat : Nat) : Int) = k := Int.toNat_of_nonneg (by omega)
  have h1 : ((i : Int) + 1 - 1) * k = ((i * k.toNat : Nat) : Int) := by
    push_cast
    rw [hk']
    ring
  rw [h1, Int.toNat_natCast]

end PatientsApi

namespace PatientsApi

theorem ageMinStage_ignored (q : Query) (l : List Patient) (s : String)
    (h : parseIntJS s = none) : ageMinStage (withAgeMin q (some s)) l = l := by
  unfold ageMinStage
  by_cases hs : s = ""
  · subst hs
    simp [withAgeMin, jsTruthy]
  · have ht : jsTruthy (withAgeMin q (some s)).ageMin = true := by
      simp [withAgeMin, jsTruthy, hs]
    rw [if_pos ht]
    show (match parseIntJS s with
      | some minAge => l.filter (fun p => decide (minAge ≤ p.age))
      | none => l) = l
    rw [h]

theorem ageMaxStage_ignored (q : Query) (l : List Patient) (s : String)
    (h : parseIntJS s = none) : ageMaxStage (withAgeMax q (some s)) l = l := by
  unfold ageMaxStage
  by_cases hs : s = ""
  · subst hs
    simp [withAgeMax, jsTruthy]
  · have ht : jsTruthy (withAgeMax q (some s)).ageMax = true := by
      simp [withAgeMax, jsTruthy, hs]
    rw [if_pos ht]
    show (match parseIntJS s with
      | some maxAge => l.filter (fun p => decide (p.age ≤ maxAge))
      | none => l) = l
    rw [h]

theorem filter_ageMin_ignored (q : Query) (l : List Patient) (s : String)
    (h : parseIntJS s = none) :
    filterPatients l (withAgeMin q (some s)) = filterPatients l (withAgeMin q none) := by
  show issueStage q (ageMaxStage q (ageMinStage (withAgeMin q (some s)) (searchStage q l))) =
    issueStage q (ageMaxStage q (ageMinStage (withAgeMin q none) (searchStage q l)))
  rw [ageMinStage_ignored q _ s h]
  rfl

theorem filter_ageMax_ignored (q : Query) (l : List Patient) (s : String)
    (h : parseIntJS s = none) :
    filterPatients l (withAgeMax q (some s)) = filterPatients l (withAgeMax q none) := by
  show issueStage q (ageMaxStage (withAgeMax q (some s)) (ageMinStage q (searchStage q l))) =
    issueStage q (ageMaxStage (withAgeMax q none) (ageMinStage q (searchStage q l)))
  rw [ageMaxStage_ignored q _ s h]
  rfl

theorem GET_congr (lc : String → String → Int) (db : List Patient) (q q' : Query)
    (hpage : q.page = q'.page) (hlimit : q.limit = q'.limit)
    (hsb : q.sortBy = q'.sortBy) (hso : q.sortOrder = q'.sortOrder)
    (hfp : filterPatients db q = filterPatients db q') : GET lc db q = GET lc db q' := by
  simp only [GET, pageParam, limitParam, hpage, hlimit, hsb, hso, hfp]

/-- C9: the filter stage is idempotent. -/
theorem filterPatients_idempotent (q : Query) (l : List Patient) :
    filterPatients (filterPatients l q) q = filterPatients l q := by
  rw [filterPatients_eq_filter, filterPatients_eq_filter, List.filter_filter]
  simp [Bool.and_self]

/-- C7: a non-numeric age bound is silently ignored (the filter — and the
whole handler — behave as if the bound were absent), and a record passes
the age-filter stages exactly when it meets every bound that is present. -/
theorem age_bounds_lenient :
    (∀ (q : Query) (l : List Patient) (s : String), parseIntJS s = none →
        filterPatients l (withAgeMin q (some s)) = filterPatients l (withAgeMin q none))
    ∧ (∀ (q : Query) (l : List Patient) (s : String), parseIntJS s = none →
        filterPatients l (withAgeMax q (some s)) = filterPatients l (withAgeMax q none))
    ∧ (∀ (lc : String → String → Int) (db : List Patient) (q : Query) (s : String),
        parseIntJS s = none →
        GET lc db (withAgeMin q (some s)) = GET lc db (withAgeMin q none))
    ∧ (∀ (q : Query) (l : List Patient) (p : Patient),
        p ∈ ageMaxStage q (ageMinStage q l) ↔
          p ∈ l ∧ (∀ m, ageMinBound q = some m → m ≤ p.age)
            ∧ (∀ m, ageMaxBound q = some m → p.age ≤ m)) := by
  refine ⟨filter_ageMin_ignored, filter_ageMax_ignored, ?_, ?_⟩
  · intro lc db q s h
    exact GET_congr lc db _ _ rfl rfl rfl rfl (filter_ageMin_ignored q db s h)
  · intro q l p
    rw [ageMaxStage_eq, ageMinStage_eq, List.filter_filter, List.mem_filter]
    rcases hmin : ageMinBound q with _ | m <;> rcases hmax : ageMaxBound q with _ | m' <;>
      simp [ageMinPass, ageMaxPass, hmin, hmax] <;> tauto

/-- Witness for C7 at concrete inputs. -/
theorem age_bounds_lenient_witness :
    filterPatients samplePatients (withAgeMin emptyQuery (some "abc"))
      = filterPatients samplePatients (withAgeMin emptyQuery none) :=
  age_bounds_lenient.1 emptyQuery samplePatients "abc" (by decide)

end PatientsApi

namespace PatientsApi

/-- C4: `totalPages` is the ceiling of `total / limit`; it is `0` exactly
when the collection is empty. -/
theorem paginate_totalPages_ceil (l : List Patient) (page : JSNum) (k : Int)
    (hk1 : 1 ≤ k) (hk2 : k ≤ 100) :
    (paginateResults l page (some k)).meta.totalPages = some ⌈(l.length : ℚ) / (k : ℚ)⌉
    ∧ (paginateResults l page (some k)).meta.totalPages
        = some (((l.length + k.toNat - 1) / k.toNat : Nat) : Int)
    ∧ ((paginateResults l page (some k)).meta.totalPages = some 0 ↔ l.length = 0) := by
  have htp : (paginateResults l page (some k)).meta.totalPages
      = jsCeilDiv l.length (some k) := rfl
  have h2 := jsCeilDiv_eq l.length k hk1
  refine ⟨?_, ?_, ?_⟩
  · rw [htp]
    simp [jsCeilDiv, show ¬ k = 0 by omega]
  · rw [htp, h2]
  · rw [htp, h2]
    constructor
    · intro h
      have h0 : ((l.length + k.toNat - 1) / k.toNat : Nat) = 0 := by
        exact_mod_cast Option.some_inj.mp h
      have := (Nat.div_eq_zero_iff (show 0 < k.toNat by omega)).mp h0
      omega
    · intro h
      have h0 : ((l.length + k.toNat - 1) / k.toNat : Nat) = 0 := by
        rw [h]
        exact (Nat.div_eq_zero_iff (show 0 < k.toNat by omega)).mpr (by omega)
      rw [h0]
      rfl

/-- Witness for C4 on the sample data (`total = 4`, `limit = 10`). -/
theorem paginate_totalPages_ceil_witness :
    (paginateResults samplePatients (some 1) (some 10)).meta.totalPages
        = some ⌈((samplePatients.length : ℚ)) / ((10 : Int) : ℚ)⌉
    ∧ (paginateResults samplePatients (some 1) (some 10)).meta.totalPages
        = some (((samplePatients.length + (10 : Int).toNat - 1) / (10 : Int).toNat : Nat) : Int)
    ∧ ((paginateResults samplePatients (some 1) (some 10)).meta.totalPages = some 0
        ↔ samplePatients.length = 0) :=
  paginate_totalPages_ceil samplePatients (some 1) 10 (by decide) (by decide)

/-- C2: the page slices for pages `1 … totalPages` concatenate to the whole
collection, so no record is duplicated or dropped and the page lengths sum
to `total`. -/
theorem paginate_partition (l : List Patient) (k : Int) (hk1 : 1 ≤ k) (hk2 : k ≤ 100)
    (tp : Nat)
    (htp : (paginateResults l (some 1) (some k)).meta.totalPages = some (tp : Int)) :
    (((List.range tp).map
        (fun (i : Nat) => (paginateResults l (some ((i : Int) + 1)) (some k)).data)).flatten = l)
    ∧ (((List.range tp).map
        (fun (i : Nat) => ((paginateResults l (some ((i : Int) + 1)) (some k)).data).length)).sum
        = l.length) := by
  have hkt : 0 < k.toNat := by omega
  have h2 : (paginateResults l (some 1) (some k)).meta.totalPages
      = some (((l.length + k.toNat - 1) / k.toNat : Nat) : Int) := jsCeilDiv_eq l.length k hk1
  have htp' : tp = (l.length + k.toNat - 1) / k.toNat := by
    exact_mod_cast Option.some_inj.mp (htp.symm.trans h2)
  have hcover : l.length ≤ tp * k.toNat := by
    rw [htp']
    exact le_ceilDiv_mul _ _ hkt
  have hdata : ∀ i : Nat, (paginateResults l (some ((i : Int) + 1)) (some k)).data
      = (l.drop (i * k.toNat)).take k.toNat := fun i => paginate_data_nat l k hk1 i
  have hp1 : ((List.range tp).map
      (fun (i : Nat) => (paginateResults l (some ((i : Int) + 1)) (some k)).data)).flatten = l := by
    rw [List.map_congr_left (fun i _ => hdata i)]
    exact flatten_chunks k.toNat tp l hcover
  refine ⟨hp1, ?_⟩
  have hlen := congrArg List.length hp1
  rw [List.length_flatten, List.map_map] at hlen
  simpa [Function.comp] using hlen

/-- Witness for C2: 4 records, `limit = 3`, hence 2 pages. -/
theorem paginate_partition_witness :
    (((List.range 2).map
        (fun (i : Nat) => (paginateResults samplePatients (some ((i : Int) + 1)) (some 3)).data)).flatten
      = samplePatients)
    ∧ (((List.range 2).map
        (fun (i : Nat) =>
          ((paginateResults samplePatients (some ((i : Int) + 1)) (some 3)).data).length)).sum
      = samplePatients.length) :=
  paginate_partition samplePatients 3 (by decide) (by decide) 2
    (by
      rw [show (paginateResults samplePatients (some 1) (some 3)).meta.totalPages
          = jsCeilDiv samplePatients.length (some 3) from rfl,
        jsCeilDiv_eq samplePatients.length 3 (by decide)]
      decide)

end PatientsApi

namespace PatientsApi

/-- C5: a numeric page beyond `totalPages` yields an empty `data` array
with `total` and `limit` unchanged, and the handler never errors on
page/limit values (only invalid sort parameters are rejected). -/
theorem paginate_beyond_last_page (l : List Patient) (k p : Int) (tp : Nat)
    (hk1 : 1 ≤ k) (hk2 : k ≤ 100)
    (htp : (paginateResults l (some p) (some k)).meta.totalPages = some (tp : Int))
    (hp : (tp : Int) < p) :
    (paginateResults l (some p) (some k)).data = []
    ∧ (paginateResults l (some p) (some k)).meta.total = l.length
    ∧ (paginateResults l (some p) (some k)).meta.limit = some k
    ∧ (∀ (lc : String → String → Int) (db : List Patient) (q : Query),
        validSortOrders.contains (orElse q.sortOrder "asc") →
        (orElse q.sortBy "" = "" ∨ validSortFields.contains (orElse q.sortBy "")) →
        ∃ body, GET lc db q = GetResponse.ok 200 body) := by
  have hkt : 0 < k.toNat := by omega
  have h2 : (paginateResults l (some p) (some k)).meta.totalPages
      = some (((l.length + k.toNat - 1) / k.toNat : Nat) : Int) := jsCeilDiv_eq l.length k hk1
  have htp' : tp = (l.length + k.toNat - 1) / k.toNat := by
    exact_mod_cast Option.some_inj.mp (htp.symm.trans h2)
  have htpnn : (0 : Int) ≤ (tp : Int) := Int.natCast_nonneg tp
  have hp1 : 1 ≤ p := by omega
  refine ⟨?_, rfl, rfl, ?_⟩
  · rw [paginate_data l p k hp1 hk1]
    have hcov : l.length ≤ tp * k.toNat := by
      rw [htp']
      exact le_ceilDiv_mul _ _ hkt
    have hk' : ((k.toNat : Nat) : Int) = k := Int.toNat_of_nonneg (by omega)
    have hc1 : ((tp * k.toNat : Nat) : Int) ≤ (p - 1) * k := by
      push_cast
      rw [hk']
      exact mul_le_mul_of_nonneg_right (by omega) (by omega)
    have hc2 : (l.length : Int) ≤ (p - 1) * k := le_trans (by exact_mod_cast hcov) hc1
    have hc3 : l.length ≤ ((p - 1) * k).toNat := by omega
    rw [List.drop_eq_nil_of_le hc3]
    exact List.take_nil
  · intro lc db q hso hsb
    have hA : ¬ (orElse q.sortBy "" ≠ "" ∧ ¬ validSortFields.contains (orElse q.sortBy "")) := by
      rcases hsb with h | h
      · intro hc
        exact hc.1 h
      · intro hc
        exact hc.2 h
    have hB : ¬ (orElse q.sortOrder "asc" ≠ ""
        ∧ ¬ validSortOrders.contains (orElse q.sortOrder "asc")) := by
      intro hc
      exact hc.2 hso
    refine ⟨paginateResults
      (sortPatients lc (filterPatients db q) (orElse q.sortBy "") (orElse q.sortOrder "asc"))
      (pageParam q) (limitParam q), ?_⟩
    simp only [GET]
    rw [if_neg hA, if_neg hB]

/-- Witness for C5: 4 records, `limit = 3`, `totalPages = 2`, `page = 3`. -/
theorem paginate_beyond_last_page_witness :
    (paginateResults samplePatients (some 3) (some 3)).data = []
    ∧ (paginateResults samplePatients (some 3) (some 3)).meta.total = samplePatients.length
    ∧ (paginateResults samplePatients (some 3) (some 3)).meta.limit = some 3
    ∧ (∀ (lc : String → String → Int) (db : List Patient) (q : Query),
        validSortOrders.contains (orElse q.sortOrder "asc") →
        (orElse q.sortBy "" = "" ∨ validSortFields.contains (orElse q.sortBy "")) →
        ∃ body, GET lc db q = GetResponse.ok 200 body) :=
  paginate_beyond_last_page samplePatients 3 3 2 (by decide) (by decide)
    (by
      rw [show (paginateResults samplePatients (some 3) (some 3)).meta.totalPages
          = jsCeilDiv samplePatients.length (some 3) from rfl,
        jsCeilDiv_eq samplePatients.length 3 (by decide)]
      decide)
    (by decide)

end PatientsApi

namespace PatientsApi

theorem paginate_none_page (l : List Patient) (limit : JSNum) :
    (paginateResults l none limit).data = [] := by
  show jsSlice l (jsMul (jsSub none (some 1)) limit)
    (jsAdd (jsMul (jsSub none (some 1)) limit) limit) = []
  cases limit <;> simp [jsSub, jsMul, jsAdd, jsSlice, sliceIdx]

theorem paginate_none_limit (l : List Patient) (page : JSNum) :
    (paginateResults l page none).data = [] := by
  show jsSlice l (jsMul (jsSub page (some 1)) none)
    (jsAdd (jsMul (jsSub page (some 1)) none) none) = []
  cases page <;> simp [jsSub, jsMul, jsAdd, jsSlice, sliceIdx]

/-- C10: a page slice never holds more than `limit` records, and every
`ok` response of the handler carries at most the clamped limit (hence at
most 100) records. -/
theorem paginate_data_le_limit :
    (∀ (l : List Patient) (p k : Int), 1 ≤ p → 1 ≤ k → k ≤ 100 →
      ((paginateResults l (some p) (some k)).data.length : Int) ≤ k)
    ∧ (∀ (lc : String → String → Int) (db : List Patient) (q : Query) (s : Nat)
        (r : ApiResponse), GET lc db q = GetResponse.ok s r → r.data.length ≤ 100)
    ∧ (∀ (lc : String → String → Int) (db : List Patient) (q : Query) (s : Nat)
        (r : ApiResponse) (n : Int), GET lc db q = GetResponse.ok s r →
        r.meta.limit = some n → (r.data.length : Int) ≤ n) := by
  have main : ∀ (l : List Patient) (p k : Int), 1 ≤ p → 1 ≤ k →
      (paginateResults l (some p) (some k)).data.length ≤ k.toNat := by
    intro l p k hp hk
    rw [paginate_data l p k hp hk, List.length_take]
    exact min_le_left _ _
  refine ⟨?_, ?_, ?_⟩
  · intro l p k hp hk1 hk2
    have := main l p k hp hk1
    omega
  · intro lc db q s r h
    obtain ⟨-, hr⟩ := GET_ok lc db q s r h
    subst hr
    cases hlim : limitParam q with
    | none => rw [paginate_none_limit]; simp
    | some n =>
      obtain ⟨hn1, hn2⟩ := limitParam_some q n hlim
      cases hpg : pageParam q with
      | none => rw [paginate_none_page]; simp
      | some p =>
        have hp1 := pageParam_some q p hpg
        have := main (sortPatients lc (filterPatients db q)
          (orElse q.sortBy "") (orElse q.sortOrder "asc")) p n hp1 hn1
        omega
  · intro lc db q s r n h hlim
    obtain ⟨-, hr⟩ := GET_ok lc db q s r h
    subst hr
    have hlim' : limitParam q = some n := hlim
    obtain ⟨hn1, hn2⟩ := limitParam_some q n hlim'
    cases hpg : pageParam q with
    | none =>
      rw [paginate_none_page]
      simp only [List.length_nil, Nat.cast_zero]
      omega
    | some p =>
      have hp1 := pageParam_some q p hpg
      rw [hlim']
      have := main (sortPatients lc (filterPatients db q)
        (orElse q.sortBy "") (orElse q.sortOrder "asc")) p n hp1 hn1
      omega

/-- Witness for C10 on the sample data. -/
theorem paginate_data_le_limit_witness :
    ((paginateResults samplePatients (some 1) (some 3)).data.length : Int) ≤ 3 :=
  paginate_data_le_limit.1 samplePatients 1 3 (by decide) (by decide) (by decide)

end PatientsApi

namespace PatientsApi

/-- C6: a present-but-invalid `sortBy` or `sortOrder` is rejected with HTTP
400 and a message naming the field and its allowed values, and the response
does not depend on the data (no pipeline stage runs). -/
theorem invalid_sort_params_rejected
    (lc : String → String → Int) (db db' : List Patient) (q : Query) :
    ((orElse q.sortBy "" ≠ "" ∧ ¬ validSortFields.contains (orElse q.sortBy "")) →
      GET lc db q = .error 400 "Invalid sortBy field. Must be one of: age, patient_name"
      ∧ GET lc db q = GET lc db' q)
    ∧ (¬ (orElse q.sortBy "" ≠ "" ∧ ¬ validSortFields.contains (orElse q.sortBy "")) →
      (orElse q.sortOrder "asc" ≠ "" ∧ ¬ validSortOrders.contains (orElse q.sortOrder "asc")) →
      GET lc db q = .error 400 "Invalid sortOrder. Must be one of: asc, desc"
      ∧ GET lc db q = GET lc db' q) := by
  constructor
  · intro h
    have e : ∀ d : List Patient,
        GET lc d q = .error 400 "Invalid sortBy field. Must be one of: age, patient_name" := by
      intro d
      simp only [GET]
      rw [if_pos h]
      decide
    exact ⟨e db, (e db).trans (e db').symm⟩
  · intro hA hB
    have e : ∀ d : List Patient,
        GET lc d q = .error 400 "Invalid sortOrder. Must be one of: asc, desc" := by
      intro d
      simp only [GET]
      rw [if_neg hA, if_pos hB]
      decide
    exact ⟨e db, (e db).trans (e db').symm⟩

/-- Witness for C6: `sortBy=height` is rejected identically on two
different collections. -/
theorem invalid_sort_params_rejected_witness :
    GET (fun _ _ => 0) samplePatients (withSortBy emptyQuery (some "height"))
      = .error 400 "Invalid sortBy field. Must be one of: age, patient_name"
    ∧ GET (fun _ _ => 0) samplePatients (withSortBy emptyQuery (some "height"))
      = GET (fun _ _ => 0) [] (withSortBy emptyQuery (some "height")) :=
  (invalid_sort_params_rejected (fun _ _ => 0) samplePatients []
    (withSortBy emptyQuery (some "height"))).1 (by decide)

/-- C3 (counterexample): a non-numeric `page` or `limit` string is *not*
clamped into range — `parseInt` gives `NaN`, and `Math.max`/`Math.min`
propagate it, so the parameter used by the pipeline is `NaN`, not an
integer. -/
theorem page_limit_clamp_cex :
    pageParam (withPage emptyQuery (some "abc")) = none
    ∧ limitParam (withLimit emptyQuery (some "abc")) = none
    ∧ (paginateResults samplePatients (pageParam (withPage emptyQuery (some "abc")))
        (some 20)).data = []
    ∧ (paginateResults samplePatients (pageParam (withPage emptyQuery (some "abc")))
        (some 20)).meta.page = none := by
  refine ⟨by decide, by decide, by decide, by decide⟩

/-- C3 (amended): when `page`/`limit` are absent the defaults 1 and 20 are
used; when they parse to a number the clamps `max 1` and
`min 100 (max 1 ·)` apply; and any numeric page/limit actually used lies in
the claimed range. -/
theorem page_limit_clamp_amended :
    (∀ q : Query, q.page = none → pageParam q = some 1)
    ∧ (∀ q : Query, q.limit = none → limitParam q = some 20)
    ∧ (∀ (q : Query) (s : String) (n : Int), q.page = some s → parseIntJS s = some n →
        pageParam q = some (max 1 n))
    ∧ (∀ (q : Query) (s : String) (n : Int), q.limit = some s → parseIntJS s = some n →
        limitParam q = some (min 100 (max 1 n)))
    ∧ (∀ (q : Query) (n : Int), pageParam q = some n → 1 ≤ n)
    ∧ (∀ (q : Query) (n : Int), limitParam q = some n → 1 ≤ n ∧ n ≤ 100) := by
  refine ⟨?_, ?_, ?_, ?_, pageParam_some, limitParam_some⟩
  · intro q h
    have ho : orElse q.page "1" = "1" := by rw [h]; rfl
    rw [pageParam, ho]
    decide
  · intro q h
    have ho : orElse q.limit "20" = "20" := by rw [h]; rfl
    rw [limitParam, ho]
    decide
  · intro q s n hs hn
    have hs' : ¬ s = "" := by
      intro he
      subst he
      rw [show parseIntJS "" = none from rfl] at hn
      exact Option.noConfusion hn
    have ho : orElse q.page "1" = s := by
      rw [hs]
      simp [orElse, hs']
    rw [pageParam, ho, hn]
    rfl
  · intro q s n hs hn
    have hs' : ¬ s = "" := by
      intro he
      subst he
      rw [show parseIntJS "" = none from rfl] at hn
      exact Option.noConfusion hn
    have ho : orElse q.limit "20" = s := by
      rw [hs]
      simp [orElse, hs']
    rw [limitParam, ho, hn]
    rfl

/-- Witness for C3's amended statement at concrete inputs. -/
theorem page_limit_clamp_amended_witness :
    pageParam (withPage emptyQuery (some "007")) = some (max 1 7)
    ∧ limitParam (withLimit emptyQuery (some "250")) = some (min 100 (max 1 250)) :=
  ⟨page_limit_clamp_amended.2.2.1 (withPage emptyQuery (some "007")) "007" 7 rfl (by decide),
   page_limit_clamp_amended.2.2.2.1 (withLimit emptyQuery (some "250")) "250" 250 rfl (by decide)⟩

end PatientsApi

namespace PatientsApi

/-- Stability of the modelled stable sort for any comparator that is
transitive and total on the nonpositive side. -/
theorem stable_of_cmp (cmp : Patient → Patient → Int)
    (htr : ∀ x y z, cmp x y ≤ 0 → cmp y z ≤ 0 → cmp x z ≤ 0)
    (hto : ∀ x y, cmp x y ≤ 0 ∨ cmp y x ≤ 0)
    (a b : Patient) (ps : List Patient) (hab : cmp a b ≤ 0) (h : List.Sublist [a, b] ps) :
    List.Sublist [a, b] (ps.mergeSort (fun x y => decide (cmp x y ≤ 0))) :=
  List.pair_sublist_mergeSort
    (by intro x y z hxy hyz; simp only [decide_eq_true_eq] at *; exact htr x y z hxy hyz)
    (by intro x y; simpa only [Bool.or_eq_true, decide_eq_true_eq] using hto x y)
    (by simpa only [decide_eq_true_eq] using hab) h

/-- C1: `sortOrder = desc` negates the comparison result, so the sort stays
stable in both directions: a tied pair keeps its original relative order for
every direction string. Concretely, ages `[30, 25, 30, 40]` sorted
descending give `[40, 30(first), 30(second), 25]`, which differs from the
reversal of the ascending result. The collation `lc` is assumed consistent
(antisymmetric in sign and transitive). -/
theorem sortPatients_desc_stable (lc : String → String → Int)
    (hsign : ∀ x y, lc x y ≤ 0 ↔ 0 ≤ lc y x)
    (htrans : ∀ x y z, lc x y ≤ 0 → lc y z ≤ 0 → lc x z ≤ 0) :
    (∀ (sortBy : String), (sortBy = "age" ∨ sortBy = "patient_name") →
      ∀ (sortOrder : String) (a b : Patient) (ps : List Patient),
        compareValue lc sortBy a b = some 0 → List.Sublist [a, b] ps →
        List.Sublist [a, b] (sortPatients lc ps sortBy sortOrder))
    ∧ sortPatients lc samplePatients "age" "desc" = [pD, pA, pC, pB]
    ∧ sortPatients lc samplePatients "age" "desc"
        ≠ (sortPatients lc samplePatients "age" "asc").reverse := by
  have hdesc : sortPatients lc samplePatients "age" "desc" = [pD, pA, pC, pB] := by
    simp [sortPatients, samplePatients, List.mergeSort, List.splitInTwo, List.splitAt_eq,
      List.merge, comparator, compareValue, pA, pB, pC, pD]
  have hasc : sortPatients lc samplePatients "age" "asc" = [pB, pA, pC, pD] := by
    simp [sortPatients, samplePatients, List.mergeSort, List.splitInTwo, List.splitAt_eq,
      List.merge, comparator, compareValue, pA, pB, pC, pD]
  refine ⟨?_, hdesc, by rw [hdesc, hasc]; decide⟩
  intro sortBy hsb sortOrder a b ps h0 hsub
  rcases hsb with hsb | hsb <;> subst hsb
  · -- sortBy = "age"
    rw [sortPatients, if_neg (by decide)]
    have hcmp : ∀ x y : Patient, comparator lc "age" sortOrder x y
        = if sortOrder = "desc" then -(x.age - y.age) else (x.age - y.age) := fun x y => rfl
    have h0' : a.age - b.age = 0 := by
      have : (some (a.age - b.age) : Option Int) = some 0 := h0
      exact Option.some_inj.mp this
    apply stable_of_cmp
    · intro x y z hxy hyz
      rw [hcmp] at *
      by_cases hso : sortOrder = "desc" <;> simp [hso] at * <;> omega
    · intro x y
      rw [hcmp, hcmp]
      by_cases hso : sortOrder = "desc" <;> simp [hso] <;> omega
    · rw [hcmp]
      by_cases hso : sortOrder = "desc" <;> simp [hso] <;> omega
    · exact hsub
  · -- sortBy = "patient_name"
    rw [sortPatients, if_neg (by decide)]
    have hcmp : ∀ x y : Patient, comparator lc "patient_name" sortOrder x y
        = if sortOrder = "desc" then -(lc x.patient_name y.patient_name)
          else lc x.patient_name y.patient_name := fun x y => rfl
    have h0' : lc a.patient_name b.patient_name = 0 := by
      have : (some (lc a.patient_name b.patient_name) : Option Int) = some 0 := h0
      exact Option.some_inj.mp this
    apply stable_of_cmp
    · intro x y z hxy hyz
      rw [hcmp] at *
      by_cases hso : sortOrder = "desc" <;> simp [hso] at *
      · -- desc : 0 ≤ lc x y, 0 ≤ lc y z ⊢ 0 ≤ lc x z
        have h1 : lc y.patient_name x.patient_name ≤ 0 :=
          (hsign y.patient_name x.patient_name).mpr (by omega)
        have h2 : lc z.patient_name y.patient_name ≤ 0 :=
          (hsign z.patient_name y.patient_name).mpr (by omega)
        have h3 := htrans _ _ _ h2 h1
        have := (hsign z.patient_name x.patient_name).mp h3
        omega
      · exact htrans _ _ _ hxy hyz
    · intro x y
      rw [hcmp, hcmp]
      by_cases hso : sortOrder = "desc" <;> simp [hso]
      · by_cases h : 0 ≤ lc x.patient_name y.patient_name
        · left; omega
        · right
          have := (hsign x.patient_name y.patient_name).mp (by omega)
          omega
      · by_cases h : lc x.patient_name y.patient_name ≤ 0
        · left; exact h
        · right
          exact (hsign y.patient_name x.patient_name).mpr (by omega)
    · rw [hcmp]
      by_cases hso : sortOrder = "desc" <;> simp [hso] <;> omega
    · exact hsub

/-- Witness for C1 with the trivial (everywhere-tied) collation. -/
theorem sortPatients_desc_stable_witness :
    (List.Sublist [pA, pC] (sortPatients (fun _ _ => 0) samplePatients "age" "desc"))
    ∧ sortPatients (fun _ _ => 0) samplePatients "age" "desc" = [pD, pA, pC, pB] := by
  have h := sortPatients_desc_stable (fun _ _ => 0)
    (by intro x y; simp)
    (by intro x y z h1 h2; simp)
  exact ⟨h.1 "age" (Or.inl rfl) "desc" pA pC samplePatients (by decide) (by decide), h.2.1⟩

end PatientsApi
